import Mathlib

/-
Verification of the session/token lifecycle core of one-backend-go.

Shallow embedding conventions:
- Time is modelled as `Int` Unix seconds (UTC).  Go `time.Duration` values
  are modelled in whole seconds, matching `AccessTTLSeconds`.
- MongoDB ObjectIDs are modelled as `Nat`; `userID.Hex()` is modelled by the
  injective rendering `toString`.
- The HMAC signature of a JWS is modelled symbolically: a signature is the
  triple (method, key, payload), and verification is equality with the
  recomputed triple.  This is the standard symbolic model of a MAC.
- bcrypt is modelled symbolically the same way: a hash determines (cost,
  plaintext) and `CompareHashAndPassword` is plaintext equality.
- The `refresh_tokens` Mongo collection is a `List RefreshToken`;
  `FindOne` is `List.find?`, `UpdateByID` / `UpdateMany` are `List.map`,
  `InsertOne` is an append.  Fresh random values (ObjectIDs, refresh token
  strings from the CSPRNG) are passed in as explicit parameters.
- Unicode case mapping beyond ASCII is out of scope: `goToLower` is the
  ASCII fragment of Go's `strings.ToLower`; `goTrimSpace` uses the full
  `unicode.IsSpace` code-point set.
-/

/- ── AccessTokenCodec: internal/domain/auth/jwt.go ─────────────────────── -/

/-- JWS signing methods that can appear in a token header (`alg`). -/
inductive SigningMethod where
  | HS256
  | HS384
  | HS512
  | RS256
  | ES256
  | none
  deriving DecidableEq, Repr

/-- The golang-jwt key callback in `ValidateAccessToken` checks
`t.Method.(*jwt.SigningMethodHMAC)`: membership in the HMAC family. -/
def SigningMethod.isHMAC : SigningMethod → Bool
  | .HS256 => true
  | .HS384 => true
  | .HS512 => true
  | _ => false

/-- `Claims` from jwt.go: custom `email` plus the registered claims used by
`GenerateAccessToken` (`sub`, `iat`, `exp`). -/
structure Claims where
  email : String
  subject : String
  issuedAt : Int
  expiresAt : Int
  deriving DecidableEq, Repr

/-- Symbolic model of a MAC over the signing input: the signature produced by
`method` with `key` over the claim payload. -/
structure Signature where
  method : SigningMethod
  key : String
  payload : Claims
  deriving DecidableEq, Repr

/-- `token.SignedString(secret)`: sign the payload with the given method. -/
def signClaims (m : SigningMethod) (key : String) (c : Claims) : Signature :=
  { method := m, key := key, payload := c }

/-- A structurally well-formed JWS compact token: header (`alg`), payload,
signature segment. -/
structure Token where
  alg : SigningMethod
  claims : Claims
  sig : Signature
  deriving DecidableEq, Repr

/-- `JWTManager` from jwt.go; `accessTTL` in seconds. -/
structure JWTManager where
  secret : String
  accessTTL : Int
  deriving DecidableEq, Repr

/-- `GenerateAccessToken`: claims with `sub = userID`, `email`, `iat = now`,
`exp = now + accessTTL`, signed with HS256 under the manager's secret. -/
def GenerateAccessToken (j : JWTManager) (now : Int) (userID email : String) : Token :=
  let c : Claims :=
    { email := email
      subject := userID
      issuedAt := now
      expiresAt := now + j.accessTTL }
  { alg := .HS256, claims := c, sig := signClaims .HS256 j.secret c }

/-- Error kinds visible at the service boundary. -/
inductive AuthError where
  | AlgorithmRejected
  | SignatureInvalid
  | Expired
  | UsedBeforeIssued
  | InvalidOrExpiredToken
  | InvalidCredentials
  | EmailExists
  deriving DecidableEq, Repr

/-- `ValidateAccessToken`, following golang-jwt v5 `ParseWithClaims` order:
the key callback rejects any non-HMAC method; the signature is verified
against the configured secret; then claims are validated with zero leeway:
`exp` must be strictly in the future, `iat` must not be in the future. -/
def ValidateAccessToken (j : JWTManager) (now : Int) (t : Token) :
    Except AuthError Claims :=
  if t.alg.isHMAC = false then .error .AlgorithmRejected
  else if t.sig ≠ signClaims t.alg j.secret t.claims then .error .SignatureInvalid
  else if t.claims.expiresAt ≤ now then .error .Expired
  else if now < t.claims.issuedAt then .error .UsedBeforeIssued
  else .ok t.claims

/-- `AccessTTLSeconds`: the access TTL in whole seconds (the model already
keeps durations in seconds). -/
def AccessTTLSeconds (j : JWTManager) : Int :=
  j.accessTTL

/- ── CredentialVerifier: bcrypt, src/unnamed/part_005 ──────────────────── -/

/-- Symbolic model of a bcrypt hash: the opaque string is determined by the
cost factor and the hashed plaintext. -/
structure PasswordHash where
  cost : Nat
  plain : String
  deriving DecidableEq, Repr

/-- `bcryptCost` from part_005. -/
def bcryptCost : Nat := 12

/-- `bcrypt.GenerateFromPassword` (symbolic). -/
def GenerateFromPassword (password : String) (cost : Nat) : PasswordHash :=
  { cost := cost, plain := password }

/-- `bcrypt.CompareHashAndPassword` (symbolic): true exactly when the hash
was produced from this plaintext. -/
def CompareHashAndPassword (hash : PasswordHash) (password : String) : Bool :=
  hash.plain == password

/- ── Email normalization: strings.TrimSpace / strings.ToLower ──────────── -/

/-- `unicode.IsSpace` on a code point: the Latin-1 fast path plus the
White_Space ranges used by Go. -/
def isSpaceGo (c : Char) : Bool :=
  let n := c.toNat
  n == 9 || n == 10 || n == 11 || n == 12 || n == 13 || n == 32 ||
  n == 0x85 || n == 0xa0 || n == 0x1680 || (0x2000 ≤ n && n ≤ 0x200a) ||
  n == 0x2028 || n == 0x2029 || n == 0x202f || n == 0x205f || n == 0x3000

/-- ASCII fragment of `unicode.ToLower`: map a code point in `[65, 90]`
(`A`-`Z`) to its lowercase form 32 higher. -/
def charToLower (c : Char) : Char :=
  if 65 ≤ c.toNat ∧ c.toNat ≤ 90 then Char.ofNat (c.toNat + 32) else c

/-- `strings.TrimSpace` on the underlying character list: drop leading and
trailing white space. -/
def trimL (l : List Char) : List Char :=
  (((l.dropWhile isSpaceGo).reverse).dropWhile isSpaceGo).reverse

/-- `strings.ToLower` on the underlying character list. -/
def lowerL (l : List Char) : List Char :=
  l.map charToLower

/-- `strings.TrimSpace`. -/
def goTrimSpace (s : String) : String :=
  String.mk (trimL s.data)

/-- `strings.ToLower`. -/
def goToLower (s : String) : String :=
  String.mk (lowerL s.data)

/-- The normalization applied to emails by `Register` and `Authenticate`:
`strings.ToLower(strings.TrimSpace(email))`. -/
def normalizeEmail (s : String) : String :=
  goToLower (goTrimSpace s)

/- ── User domain: src/unnamed/part_005, part_006, user/repository.go ───── -/

/-- `User` from part_006 (fields relevant to the session core). -/
structure User where
  id : Nat
  name : String
  email : String
  passwordHash : PasswordHash
  role : String
  deriving DecidableEq, Repr

/-- `Repository.FindByEmail`: `FindOne` on the `users` collection with an
exact `email` filter. -/
def FindByEmail (users : List User) (email : String) : Option User :=
  users.find? (fun u => u.email == email)

/-- `Repository.Create` for users: insert, where the unique index on
`users.email` makes a duplicate email fail with `ErrEmailExists`. -/
def CreateUser (users : List User) (u : User) : Except AuthError (List User) :=
  if users.any (fun v => v.email == u.email) then .error .EmailExists
  else .ok (users ++ [u])

/-- `user.Service.Register`: normalize the email, hash the password with
cost 12, insert a `RoleUser` user. The fresh ObjectID is a parameter. -/
def Register (users : List User) (freshId : Nat) (name email password : String) :
    Except AuthError (User × List User) :=
  let email := goToLower (goTrimSpace email)
  let u : User :=
    { id := freshId
      name := goTrimSpace name
      email := email
      passwordHash := GenerateFromPassword password bcryptCost
      role := "user" }
  match CreateUser users u with
  | .error e => .error e
  | .ok users => .ok (u, users)

/-- `user.Service.Authenticate`: normalize the email, look the user up by
email, compare the bcrypt hash; both a missing user and a mismatching
password yield `ErrInvalidCredentials`. -/
def Authenticate (users : List User) (email password : String) :
    Except AuthError User :=
  let email := goToLower (goTrimSpace email)
  match FindByEmail users email with
  | Option.none => .error .InvalidCredentials
  | some u =>
    if CompareHashAndPassword u.passwordHash password then .ok u
    else .error .InvalidCredentials

/- ── RefreshTokenStore: internal/domain/auth/{model,repository}.go ─────── -/

/-- `RefreshToken` document from model.go. -/
structure RefreshToken where
  id : Nat
  userID : Nat
  token : String
  expiresAt : Int
  revoked : Bool
  createdAt : Int
  deriving DecidableEq, Repr

/-- `Repository.CreateRefreshToken`: set a fresh `_id` and `created_at`,
then `InsertOne` into the `refresh_tokens` collection. -/
def CreateRefreshToken (store : List RefreshToken) (rt : RefreshToken)
    (freshId : Nat) (now : Int) : List RefreshToken :=
  store ++ [{ rt with id := freshId, createdAt := now }]

/-- `Repository.FindRefreshToken`: `FindOne` with the filter
`{token: token, revoked: false}`; `ErrNoDocuments` becomes `none`.
Note the filter does not constrain `expires_at`. -/
def FindRefreshToken (store : List RefreshToken) (token : String) :
    Option RefreshToken :=
  store.find? (fun rt => rt.token == token && rt.revoked == false)

/-- `Repository.RevokeRefreshToken`: `UpdateByID` with
`{$set: {revoked: true}}`. -/
def RevokeRefreshToken (store : List RefreshToken) (id : Nat) :
    List RefreshToken :=
  store.map (fun rt => if rt.id == id then { rt with revoked := true } else rt)

/-- `Repository.RevokeAllForUser`: `UpdateMany` on
`{user_id: userID, revoked: false}` with `{$set: {revoked: true}}`. -/
def RevokeAllForUser (store : List RefreshToken) (userID : Nat) :
    List RefreshToken :=
  store.map (fun rt =>
    if rt.userID == userID && rt.revoked == false then { rt with revoked := true }
    else rt)

/- ── SessionService: src/unnamed/part_008 ──────────────────────────────── -/

/-- `TokenResponse` from model.go. -/
structure TokenResponse where
  accessToken : Token
  accessTokenExpiresIn : Int
  refreshToken : String
  tokenType : String
  deriving DecidableEq, Repr

/-- `Service.issueTokens`: generate an access token for `userID.Hex()` and
`email` (the `email == ""` branch in the source is a no-op that keeps the
empty string), generate a fresh refresh secret, store a non-revoked record
expiring at `now + refreshTTL`, and assemble the response with
`TokenType: "Bearer"`. The fresh ObjectID and CSPRNG output are
parameters. -/
def issueTokens (j : JWTManager) (refreshTTL : Int) (store : List RefreshToken)
    (now : Int) (freshId : Nat) (freshSecret : String) (userID : Nat)
    (email : String) : TokenResponse × List RefreshToken :=
  let email := if email = "" then "" else email
  let accessToken := GenerateAccessToken j now (toString userID) email
  let rt : RefreshToken :=
    { id := 0
      userID := userID
      token := freshSecret
      expiresAt := now + refreshTTL
      revoked := false
      createdAt := 0 }
  let store := CreateRefreshToken store rt freshId now
  ({ accessToken := accessToken
     accessTokenExpiresIn := AccessTTLSeconds j
     refreshToken := freshSecret
     tokenType := "Bearer" }, store)

/-- `Service.Login`: authenticate via the user service, then issue a pair
for `u.ID, u.Email`; an authentication failure is returned as-is and the
store is untouched. -/
def Login (users : List User) (j : JWTManager) (refreshTTL : Int)
    (store : List RefreshToken) (now : Int) (email password : String)
    (freshId : Nat) (freshSecret : String) :
    Except AuthError TokenResponse × List RefreshToken :=
  match Authenticate users email password with
  | .error e => (.error e, store)
  | .ok u =>
    let p := issueTokens j refreshTTL store now freshId freshSecret u.id u.email
    (.ok p.1, p.2)

/-- `Service.Refresh`: find the presented secret (`FindRefreshToken`), fail
with `ErrInvalidRefreshToken` when absent or when
`time.Now().UTC().After(rt.ExpiresAt)`, otherwise revoke the found record
by its `_id` and issue a new pair for `rt.UserID` with an empty email. -/
def Refresh (j : JWTManager) (refreshTTL : Int) (store : List RefreshToken)
    (now : Int) (secret : String) (freshId : Nat) (freshSecret : String) :
    Except AuthError TokenResponse × List RefreshToken :=
  match FindRefreshToken store secret with
  | Option.none => (.error .InvalidOrExpiredToken, store)
  | some rt =>
    if rt.expiresAt < now then (.error .InvalidOrExpiredToken, store)
    else
      let store := RevokeRefreshToken store rt.id
      let p := issueTokens j refreshTTL store now freshId freshSecret rt.userID ""
      (.ok p.1, p.2)

/- ── Interleaving of the two store operations inside Refresh ───────────── -/

/-- The read phase of `Refresh`: everything up to and including the expiry
check, touching the store only through the single `FindRefreshToken` read. -/
def refreshFind (store : List RefreshToken) (now : Int) (secret : String) :
    Option RefreshToken :=
  match FindRefreshToken store secret with
  | Option.none => Option.none
  | some rt => if rt.expiresAt < now then Option.none else some rt

/-- The write phase of `Refresh`: `RevokeRefreshToken` on the record found
by the read phase, then `issueTokens`. -/
def refreshCommit (j : JWTManager) (refreshTTL : Int) (store : List RefreshToken)
    (now : Int) (rt : RefreshToken) (freshId : Nat) (freshSecret : String) :
    TokenResponse × List RefreshToken :=
  issueTokens j refreshTTL (RevokeRefreshToken store rt.id) now freshId freshSecret
    rt.userID ""

/-- Two concurrent `Refresh` calls with the same secret, under the schedule
in which both executions perform their `FindRefreshToken` read before
either performs its `RevokeRefreshToken` write. This schedule is admitted
because the find and the revoke are two separate store operations in
`Service.Refresh`, not one atomic conditional write. Returns caller A's
result, caller B's result, and the final store. -/
def twoRefreshRace (j : JWTManager) (refreshTTL : Int) (store : List RefreshToken)
    (now : Int) (secret : String) (fidA : Nat) (fsecA : String) (fidB : Nat)
    (fsecB : String) :
    Except AuthError TokenResponse × Except AuthError TokenResponse ×
      List RefreshToken :=
  let fa := refreshFind store now secret
  let fb := refreshFind store now secret
  match fa with
  | Option.none =>
    match fb with
    | Option.none => (.error .InvalidOrExpiredToken, .error .InvalidOrExpiredToken, store)
    | some rb =>
      let pb := refreshCommit j refreshTTL store now rb fidB fsecB
      (.error .InvalidOrExpiredToken, .ok pb.1, pb.2)
  | some ra =>
    let pa := refreshCommit j refreshTTL store now ra fidA fsecA
    match fb with
    | Option.none => (.ok pa.1, .error .InvalidOrExpiredToken, pa.2)
    | some rb =>
      let pb := refreshCommit j refreshTTL pa.2 now rb fidB fsecB
      (.ok pa.1, .ok pb.1, pb.2)

/-- Whether a service call produced a token pair. -/
def isOkResult : Except AuthError TokenResponse → Bool
  | .ok _ => true
  | .error _ => false
/- ── Claims about the access token codec ───────────────────────────────── -/

/-- C7: decoding a token produced by `GenerateAccessToken` immediately after
encoding, with a positive access TTL, succeeds and returns claims whose
subject and email are the encoded ones. -/
theorem validate_generate_roundtrip (j : JWTManager) (now : Int) (s e : String)
    (hpos : 0 < j.accessTTL) :
    ValidateAccessToken j now (GenerateAccessToken j now s e) =
      .ok { email := e, subject := s, issuedAt := now, expiresAt := now + j.accessTTL } := by
  simp [ValidateAccessToken, GenerateAccessToken, SigningMethod.isHMAC, signClaims]
  omega

/-- Witness for C7 at a concrete manager, time, subject and email. -/
theorem validate_generate_roundtrip_witness :
    ValidateAccessToken { secret := "k", accessTTL := 900 } 1000
        (GenerateAccessToken { secret := "k", accessTTL := 900 } 1000 "u1" "a@b.c") =
      .ok { email := "a@b.c", subject := "u1", issuedAt := 1000, expiresAt := 1900 } :=
  validate_generate_roundtrip { secret := "k", accessTTL := 900 } 1000 "u1" "a@b.c"
    (by decide)

/-- C6: validation accepts a token only when its `exp` claim is strictly
greater than the current time (no leeway), and a token generated with a
negative TTL is rejected as `Expired` at any decoding time at or after
encoding. -/
theorem negative_ttl_expired (j : JWTManager) (tEnc tDec : Int) (s e : String)
    (t : Token) (c : Claims) (hneg : j.accessTTL < 0) (hle : tEnc ≤ tDec) :
    ValidateAccessToken j tDec (GenerateAccessToken j tEnc s e) = .error .Expired ∧
    (ValidateAccessToken j tDec t = .ok c → tDec < c.expiresAt) := by
  constructor
  · simp [ValidateAccessToken, GenerateAccessToken, SigningMethod.isHMAC, signClaims]
    omega
  · intro h
    simp only [ValidateAccessToken] at h
    split at h
    · exact absurd h (by simp)
    · split at h
      · exact absurd h (by simp)
      · split at h
        · exact absurd h (by simp)
        · split at h
          · exact absurd h (by simp)
          · rename_i h1 h2 h3 h4
            cases h
            omega

/-- Witness for C6: a token minted with TTL -1 at time 5 is `Expired` when
decoded at time 5. -/
theorem negative_ttl_expired_witness :
    ValidateAccessToken { secret := "k", accessTTL := -1 } 5
        (GenerateAccessToken { secret := "k", accessTTL := -1 } 5 "u" "e") =
      .error .Expired :=
  (negative_ttl_expired { secret := "k", accessTTL := -1 } 5 5 "u" "e"
    (GenerateAccessToken { secret := "k", accessTTL := -1 } 5 "u" "e")
    { email := "e", subject := "u", issuedAt := 5, expiresAt := 4 }
    (by decide) (by decide)).1

/-- C3 (failing input): a token whose header declares HS384 and which is
signed with HS384 under the configured secret is accepted by
`ValidateAccessToken` — the key callback admits the whole HMAC family, so
only non-HMAC algorithms such as `none` or RS256 are rejected, contrary to
the claimed HS256-only pinning. -/
theorem hs384_wellsigned_accepted :
    ValidateAccessToken { secret := "k", accessTTL := 900 } 10
        { alg := .HS384
          claims := { email := "e", subject := "u", issuedAt := 0, expiresAt := 900 }
          sig := signClaims .HS384 "k"
            { email := "e", subject := "u", issuedAt := 0, expiresAt := 900 } } =
      .ok { email := "e", subject := "u", issuedAt := 0, expiresAt := 900 } ∧
    ValidateAccessToken { secret := "k", accessTTL := 900 } 10
        { alg := .none
          claims := { email := "e", subject := "u", issuedAt := 0, expiresAt := 900 }
          sig := signClaims .none "k"
            { email := "e", subject := "u", issuedAt := 0, expiresAt := 900 } } =
      .error .AlgorithmRejected := by
  constructor
  · rfl
  · rfl
/- ── Normalization lemmas for emails ───────────────────────────────────── -/

/-- `Char.ofNat` below the surrogate range keeps the code point. -/
theorem toNat_ofNat_of_lt (n : Nat) (h : n < 55296) : (Char.ofNat n).toNat = n := by
  simp only [Char.ofNat, Nat.isValidChar]
  rw [dif_pos (Or.inl h)]
  simp [Char.ofNatAux, Char.toNat, UInt32.toNat, BitVec.toNat_ofNatLt]

/-- A character with a code point outside every white-space range is not
white space. -/
theorem isSpaceGo_eq_false (c : Char) (h1 : 65 ≤ c.toNat) (h2 : c.toNat ≤ 122) :
    isSpaceGo c = false := by
  simp only [isSpaceGo, Bool.or_eq_false_iff, beq_eq_false_iff_ne, ne_eq,
    Bool.and_eq_false_iff, decide_eq_false_iff_not, not_le]
  omega

/-- Lowercasing never turns a character into white space or out of it. -/
theorem isSpaceGo_charToLower (c : Char) :
    isSpaceGo (charToLower c) = isSpaceGo c := by
  unfold charToLower
  split
  · rename_i h
    have hval : (Char.ofNat (c.toNat + 32)).toNat = c.toNat + 32 :=
      toNat_ofNat_of_lt (c.toNat + 32) (by omega)
    rw [isSpaceGo_eq_false (Char.ofNat (c.toNat + 32)) (by rw [hval]; omega)
        (by rw [hval]; omega),
      isSpaceGo_eq_false c (by omega) (by omega)]
  · rfl

/-- Lowercasing is idempotent. -/
theorem charToLower_idem (c : Char) :
    charToLower (charToLower c) = charToLower c := by
  unfold charToLower
  split
  · rename_i h
    have hval : (Char.ofNat (c.toNat + 32)).toNat = c.toNat + 32 :=
      toNat_ofNat_of_lt (c.toNat + 32) (by omega)
    rw [if_neg]
    rw [hval]
    omega
  · rfl

/-- `dropWhile` commutes with a map that preserves the predicate. -/
theorem dropWhile_map_of_pred_comm (f : Char → Char) (p : Char → Bool)
    (hf : ∀ c, p (f c) = p c) (l : List Char) :
    (l.map f).dropWhile p = (l.dropWhile p).map f := by
  induction l with
  | nil => rfl
  | cons c t ih =>
    simp only [List.map_cons, List.dropWhile_cons, hf c]
    split
    · exact ih
    · rfl

/-- The head of a list (if any) fails the predicate. -/
def headFails (p : Char → Bool) : List Char → Prop
  | [] => True
  | c :: _ => p c = false

/-- After `dropWhile p`, the head fails `p`. -/
theorem headFails_dropWhile (p : Char → Bool) (l : List Char) :
    headFails p (l.dropWhile p) := by
  induction l with
  | nil => trivial
  | cons c t ih =>
    simp only [List.dropWhile_cons]
    split
    · exact ih
    · rename_i h
      simpa [headFails] using h

/-- `dropWhile p` is the identity when the head already fails `p`. -/
theorem dropWhile_eq_self_of_headFails (p : Char → Bool) (l : List Char)
    (h : headFails p l) : l.dropWhile p = l := by
  cases l with
  | nil => rfl
  | cons c t =>
    simp only [headFails] at h
    simp [List.dropWhile_cons, h]

/-- A prefix of a list whose head fails `p` also has a failing head. -/
theorem headFails_of_prefix (p : Char → Bool) (l m : List Char)
    (hpre : m <+: l) (h : headFails p l) : headFails p m := by
  cases m with
  | nil => trivial
  | cons c t =>
    obtain ⟨r, hr⟩ := hpre
    cases l with
    | nil => simp at hr
    | cons c2 t2 =>
      simp only [List.cons_append, List.cons.injEq] at hr
      simpa [headFails, hr.1] using h

/-- The reverse of `dropWhile p l` keeps a failing head of `l.reverse`. -/
theorem headFails_reverse_dropWhile (p : Char → Bool) (l : List Char)
    (h : headFails p l.reverse) : headFails p (l.dropWhile p).reverse := by
  refine headFails_of_prefix p l.reverse (l.dropWhile p).reverse ?_ h
  exact List.reverse_prefix.2 (List.dropWhile_suffix p)

/-- `trimL` is idempotent. -/
theorem trimL_idem (l : List Char) : trimL (trimL l) = trimL l := by
  unfold trimL
  set A := l.dropWhile isSpaceGo with hA
  set B := A.reverse.dropWhile isSpaceGo with hB
  have h1 : headFails isSpaceGo B := headFails_dropWhile isSpaceGo A.reverse
  have h2 : headFails isSpaceGo B.reverse := by
    have := headFails_reverse_dropWhile isSpaceGo A.reverse
      (by rw [List.reverse_reverse]; exact headFails_dropWhile isSpaceGo l)
    rwa [← hB] at this
  rw [dropWhile_eq_self_of_headFails isSpaceGo B.reverse h2, List.reverse_reverse,
    dropWhile_eq_self_of_headFails isSpaceGo B h1]

/-- Trimming commutes with lowering. -/
theorem trimL_lowerL (l : List Char) : trimL (lowerL l) = lowerL (trimL l) := by
  unfold trimL lowerL
  rw [dropWhile_map_of_pred_comm charToLower isSpaceGo isSpaceGo_charToLower l,
    ← List.map_reverse,
    dropWhile_map_of_pred_comm charToLower isSpaceGo isSpaceGo_charToLower,
    ← List.map_reverse]

/-- Lowering is idempotent on lists. -/
theorem lowerL_idem (l : List Char) : lowerL (lowerL l) = lowerL l := by
  unfold lowerL
  rw [List.map_map]
  exact List.map_congr_left (fun c _ => charToLower_idem c)

/-- The email normalization of part_005 is idempotent. -/
theorem normalizeEmail_idem (s : String) :
    normalizeEmail (normalizeEmail s) = normalizeEmail s := by
  simp only [normalizeEmail, goToLower, goTrimSpace]
  rw [trimL_lowerL, trimL_idem, lowerL_idem]

/-- `Authenticate` already normalizes its email argument, so feeding it a
pre-normalized email changes nothing. -/
theorem authenticate_normalized (users : List User) (e p : String) :
    Authenticate users (goToLower (goTrimSpace e)) p = Authenticate users e p := by
  unfold Authenticate
  rw [show goToLower (goTrimSpace (goToLower (goTrimSpace e))) =
      goToLower (goTrimSpace e) from normalizeEmail_idem e]

/-- C10: login is insensitive to letter case and surrounding white space of
the email: `Login` with `e` equals `Login` with `lowercase(trim(e))`,
because `Authenticate` (like `Register`) normalizes the email before the
credential lookup. -/
theorem login_email_case_insensitive (users : List User) (j : JWTManager)
    (refreshTTL : Int) (store : List RefreshToken) (now : Int) (e p : String)
    (freshId : Nat) (freshSecret : String) :
    Login users j refreshTTL store now e p freshId freshSecret =
      Login users j refreshTTL store now (goToLower (goTrimSpace e)) p
        freshId freshSecret := by
  unfold Login
  rw [authenticate_normalized]

/-- C5: an authentication failure — the normalized email matching no stored
credential, or the bcrypt comparison failing on the matched credential —
makes `Login` return `InvalidCredentials` with the refresh store untouched,
with no distinction between the two causes. -/
theorem login_failure_uniform (users : List User) (j : JWTManager)
    (refreshTTL : Int) (store : List RefreshToken) (now : Int) (e p : String)
    (freshId : Nat) (freshSecret : String) :
    (FindByEmail users (goToLower (goTrimSpace e)) = Option.none →
      Login users j refreshTTL store now e p freshId freshSecret =
        (.error .InvalidCredentials, store)) ∧
    (∀ u, FindByEmail users (goToLower (goTrimSpace e)) = some u →
      CompareHashAndPassword u.passwordHash p = false →
      Login users j refreshTTL store now e p freshId freshSecret =
        (.error .InvalidCredentials, store)) := by
  constructor
  · intro hnone
    simp [Login, Authenticate, hnone]
  · intro u hfind hcmp
    simp [Login, Authenticate, hfind, hcmp]

/-- Witness for C5: a store with one user; a login with an unknown email and
a login with the right email but wrong password both return
`InvalidCredentials` and leave the store unchanged. -/
theorem login_failure_uniform_witness :
    Login [{ id := 7, name := "N", email := "a@b.c",
             passwordHash := { cost := 12, plain := "pw" }, role := "user" }]
        { secret := "k", accessTTL := 900 } 1000 [] 0 "z@b.c" "pw" 1 "S" =
      (.error .InvalidCredentials, []) ∧
    Login [{ id := 7, name := "N", email := "a@b.c",
             passwordHash := { cost := 12, plain := "pw" }, role := "user" }]
        { secret := "k", accessTTL := 900 } 1000 [] 0 "a@b.c" "wrong" 1 "S" =
      (.error .InvalidCredentials, []) := by
  constructor
  · exact (login_failure_uniform
      [{ id := 7, name := "N", email := "a@b.c",
         passwordHash := { cost := 12, plain := "pw" }, role := "user" }]
      { secret := "k", accessTTL := 900 } 1000 [] 0 "z@b.c" "pw" 1 "S").1 (by rfl)
  · exact (login_failure_uniform
      [{ id := 7, name := "N", email := "a@b.c",
         passwordHash := { cost := 12, plain := "pw" }, role := "user" }]
      { secret := "k", accessTTL := 900 } 1000 [] 0 "a@b.c" "wrong" 1 "S").2
      { id := 7, name := "N", email := "a@b.c",
        passwordHash := { cost := 12, plain := "pw" }, role := "user" }
      (by rfl) (by rfl)

/- ── Rotation of refresh tokens ────────────────────────────────────────── -/

/-- Well-formedness provided by the CSPRNG (spec: 10,000 generated secrets
contain no duplicates): the token strings in the store are pairwise
distinct. -/
def TokensDistinct (store : List RefreshToken) : Prop :=
  store.Pairwise (fun a b => a.token ≠ b.token)

/-- If every record holding the secret is revoked, the find returns none. -/
theorem find_none_of_no_active (store : List RefreshToken) (secret : String)
    (h : ∀ r ∈ store, r.token = secret → r.revoked = true) :
    FindRefreshToken store secret = Option.none := by
  rw [FindRefreshToken, List.find?_eq_none]
  intro r hr
  simp only [Bool.and_eq_true, beq_iff_eq, not_and]
  intro ht
  simp [h r hr ht]

/-- Inversion of a successful `Refresh`: the presented secret was found on
an active record, the record was not expired, and the resulting store is
the old store with that record revoked plus the newly created record. -/
theorem refresh_ok_inversion (j : JWTManager) (refreshTTL : Int)
    (store : List RefreshToken) (now : Int) (secret : String) (freshId : Nat)
    (freshSecret : String) (tp : TokenResponse) (store2 : List RefreshToken)
    (h : Refresh j refreshTTL store now secret freshId freshSecret =
      (.ok tp, store2)) :
    ∃ rt, FindRefreshToken store secret = some rt ∧ ¬ rt.expiresAt < now ∧
      store2 = RevokeRefreshToken store rt.id ++
        [{ id := freshId, userID := rt.userID, token := freshSecret,
           expiresAt := now + refreshTTL, revoked := false, createdAt := now }] := by
  unfold Refresh at h
  cases hf : FindRefreshToken store secret with
  | none => rw [hf] at h; simp at h
  | some rt =>
    rw [hf] at h
    by_cases he : rt.expiresAt < now
    · simp [he] at h
    · refine ⟨rt, rfl, he, ?_⟩
      simp only [if_neg he] at h
      have h2 := congrArg Prod.snd h
      simp only [issueTokens, CreateRefreshToken] at h2
      exact h2.symm

/-- After a successful rotation, no active record with the presented secret
remains: the found record (and any record sharing its `_id`) is revoked,
distinctness rules out other holders, and the replacement record carries a
different secret. -/
theorem no_active_after_rotation (j : JWTManager) (refreshTTL : Int)
    (store : List RefreshToken) (now : Int) (secret : String) (freshId : Nat)
    (freshSecret : String) (tp : TokenResponse) (store2 : List RefreshToken)
    (hdist : TokensDistinct store) (hfresh : freshSecret ≠ secret)
    (h : Refresh j refreshTTL store now secret freshId freshSecret =
      (.ok tp, store2)) :
    ∀ r ∈ store2, r.token = secret → r.revoked = true := by
  obtain ⟨rt, hf, _, hst⟩ := refresh_ok_inversion j refreshTTL store now secret
    freshId freshSecret tp store2 h
  have hrtp := List.find?_some hf
  simp only [Bool.and_eq_true, beq_iff_eq] at hrtp
  have hrtmem := List.mem_of_find?_eq_some hf
  intro r hr htok
  rw [hst, List.mem_append] at hr
  cases hr with
  | inr hnew =>
    simp only [List.mem_singleton] at hnew
    rw [hnew] at htok
    exact absurd htok hfresh
  | inl hold =>
    rw [RevokeRefreshToken, List.mem_map] at hold
    obtain ⟨r0, hr0, hr0eq⟩ := hold
    by_cases hid : r0.id == rt.id
    · rw [if_pos hid] at hr0eq
      rw [← hr0eq]
    · rw [if_neg hid] at hr0eq
      subst hr0eq
      have hne : r0 ≠ rt := by
        intro hcontra
        rw [hcontra] at hid
        simp at hid
      have := hdist.forall (by intro a b hab; exact Ne.symm hab) hr0 hrtmem hne
      exact absurd (htok.trans hrtp.1.symm) this

/-- Dead secrets are refused: when every record holding the presented secret
is revoked or expired, `Refresh` fails with the single
`InvalidOrExpiredToken` error and leaves the store unchanged. -/
theorem refresh_dead_secret (j : JWTManager) (refreshTTL : Int)
    (store : List RefreshToken) (now : Int) (secret : String) (freshId : Nat)
    (freshSecret : String)
    (h : ∀ r ∈ store, r.token = secret → r.revoked = true ∨ r.expiresAt < now) :
    Refresh j refreshTTL store now secret freshId freshSecret =
      (.error .InvalidOrExpiredToken, store) := by
  cases hf : FindRefreshToken store secret with
  | none => simp [Refresh, hf]
  | some rt =>
    have hrtp := List.find?_some hf
    simp only [Bool.and_eq_true, beq_iff_eq] at hrtp
    have hrtmem := List.mem_of_find?_eq_some hf
    have hdead := h rt hrtmem hrtp.1
    rw [hrtp.2] at hdead
    simp only [Bool.false_eq_true, false_or] at hdead
    simp only [Refresh, hf]
    rw [if_pos hdead]

/-- C2: single-use rotation. (1) If a sequential `refresh` with a secret
succeeds, an immediately following `refresh` with the same secret fails
with `InvalidOrExpiredToken` and issues nothing (given distinct stored
secrets and a replacement secret differing from the presented one, both
supplied by the CSPRNG). (2) A secret that never existed, was rotated, was
revoked, or is expired fails with the same single error and issues
nothing. -/
theorem refresh_single_use (j : JWTManager) (refreshTTL : Int)
    (store : List RefreshToken) (now now2 : Int) (secret : String)
    (freshId freshId2 : Nat) (freshSecret freshSecret2 : String) :
    (∀ tp store2, TokensDistinct store → freshSecret ≠ secret →
      Refresh j refreshTTL store now secret freshId freshSecret =
        (.ok tp, store2) →
      Refresh j refreshTTL store2 now2 secret freshId2 freshSecret2 =
        (.error .InvalidOrExpiredToken, store2)) ∧
    ((∀ r ∈ store, r.token = secret → r.revoked = true ∨ r.expiresAt < now) →
      Refresh j refreshTTL store now secret freshId freshSecret =
        (.error .InvalidOrExpiredToken, store)) := by
  constructor
  · intro tp store2 hdist hfresh hok
    have hdead := no_active_after_rotation j refreshTTL store now secret freshId
      freshSecret tp store2 hdist hfresh hok
    exact refresh_dead_secret j refreshTTL store2 now2 secret freshId2
      freshSecret2 (fun r hr ht => Or.inl (hdead r hr ht))
  · exact refresh_dead_secret j refreshTTL store now secret freshId freshSecret

/-- Concrete fixtures: a single active record holding secret `A`, issued to
user 7, expiring at time 100. -/
def rtA : RefreshToken :=
  { id := 1, userID := 7, token := "A", expiresAt := 100, revoked := false,
    createdAt := 0 }

/-- A concrete JWT manager. -/
def jDemo : JWTManager := { secret := "k", accessTTL := 900 }

/-- The store after rotating `A` at time 0 with fresh id 2 and secret `B`. -/
def storeRotated : List RefreshToken :=
  [{ id := 1, userID := 7, token := "A", expiresAt := 100, revoked := true,
     createdAt := 0 },
   { id := 2, userID := 7, token := "B", expiresAt := 50, revoked := false,
     createdAt := 0 }]

/-- The token pair produced by that rotation. -/
def tpRotated : TokenResponse :=
  { accessToken := GenerateAccessToken jDemo 0 "7" ""
    accessTokenExpiresIn := 900
    refreshToken := "B"
    tokenType := "Bearer" }

/-- Witness for C2: rotating secret `A` once succeeds; presenting `A` again
immediately fails with `InvalidOrExpiredToken` and leaves the store
unchanged. -/
theorem refresh_single_use_witness :
    Refresh jDemo 50 [rtA] 0 "A" 2 "B" = (.ok tpRotated, storeRotated) ∧
    Refresh jDemo 50 storeRotated 1 "A" 3 "C" =
      (.error .InvalidOrExpiredToken, storeRotated) := by
  refine ⟨by rfl, ?_⟩
  exact (refresh_single_use jDemo 50 [rtA] 0 1 "A" 2 3 "B" "C").1 tpRotated
    storeRotated (List.pairwise_singleton _ _) (by decide) (by rfl)

/- ── Terminality of consumed records ───────────────────────────────────── -/

/-- C4: the revoked flag is terminal. None of the store's write operations
(`RevokeRefreshToken`, `RevokeAllForUser`, `CreateRefreshToken`) ever turns
a record's `revoked` flag from `true` back to `false` — positionally, a
revoked record stays revoked — and a record that is revoked, or whose
expiry lies in the past, never again yields a successful authentication
from `Refresh`, however often its secret is presented (given the pairwise
distinct secrets supplied by the CSPRNG). -/
theorem revoked_is_terminal (store : List RefreshToken) (i : Nat)
    (h : i < store.length) :
    ((store.get ⟨i, h⟩).revoked = true → ∀ rid,
      ((RevokeRefreshToken store rid).get
        ⟨i, by simpa [RevokeRefreshToken] using h⟩).revoked = true) ∧
    ((store.get ⟨i, h⟩).revoked = true → ∀ uid,
      ((RevokeAllForUser store uid).get
        ⟨i, by simpa [RevokeAllForUser] using h⟩).revoked = true) ∧
    ((store.get ⟨i, h⟩).revoked = true → ∀ rt freshId now,
      ((CreateRefreshToken store rt freshId now).get
        ⟨i, by simp only [CreateRefreshToken, List.length_append]; omega⟩).revoked
        = true) ∧
    (∀ j refreshTTL now secret freshId freshSecret, TokensDistinct store →
      (store.get ⟨i, h⟩).token = secret →
      ((store.get ⟨i, h⟩).revoked = true ∨ (store.get ⟨i, h⟩).expiresAt < now) →
      (Refresh j refreshTTL store now secret freshId freshSecret).1 =
        .error .InvalidOrExpiredToken) := by
  refine ⟨?_, ?_, ?_, ?_⟩
  · intro hrev rid
    simp only [RevokeRefreshToken, List.get_eq_getElem, List.getElem_map]
    split
    · rfl
    · simpa [List.get_eq_getElem] using hrev
  · intro hrev uid
    simp only [RevokeAllForUser, List.get_eq_getElem, List.getElem_map]
    split
    · rfl
    · simpa [List.get_eq_getElem] using hrev
  · intro hrev rt freshId now
    simp only [CreateRefreshToken, List.get_eq_getElem, List.getElem_append]
    rw [dif_pos h]
    simpa [List.get_eq_getElem] using hrev
  · intro j refreshTTL now secret freshId freshSecret hdist htok hdead
    have hmem : store.get ⟨i, h⟩ ∈ store := List.get_mem store i h
    have hall : ∀ r ∈ store, r.token = secret →
        r.revoked = true ∨ r.expiresAt < now := by
      intro r hr hrtok
      by_cases hreq : r = store.get ⟨i, h⟩
      · rw [hreq]
        simpa using hdead
      · have := hdist.forall (by intro a b hab; exact Ne.symm hab) hr hmem hreq
        exact absurd (hrtok.trans htok.symm) this
    rw [refresh_dead_secret j refreshTTL store now secret freshId freshSecret hall]

/-- Witness for C4 on the rotated demo store, whose first record is revoked
and holds secret `A`: every write operation keeps it revoked, and
re-presenting `A` fails. -/
theorem revoked_is_terminal_witness :
    ((RevokeRefreshToken storeRotated 5).get ⟨0, by decide⟩).revoked = true ∧
    ((RevokeAllForUser storeRotated 7).get ⟨0, by decide⟩).revoked = true ∧
    ((CreateRefreshToken storeRotated rtA 9 3).get ⟨0, by decide⟩).revoked = true ∧
    (Refresh jDemo 50 storeRotated 1 "A" 4 "D").1 =
      .error .InvalidOrExpiredToken := by
  have h := revoked_is_terminal storeRotated 0 (by decide)
  exact ⟨h.1 (by rfl) 5, h.2.1 (by rfl) 7, h.2.2.1 (by rfl) rtA 9 3,
    h.2.2.2 jDemo 50 1 "A" 4 "D" (by simp [TokensDistinct, storeRotated])
      (by rfl) (Or.inl (by rfl))⟩

/- ── Shape of issued token pairs ───────────────────────────────────────── -/

/-- A concrete registered user. -/
def userDemo : User :=
  { id := 7, name := "N", email := "a@b.c",
    passwordHash := { cost := 12, plain := "pw" }, role := "user" }

/-- The token pair issued by a successful login of `userDemo` at time 0 with
fresh id 1 and fresh secret `S`. -/
def tpLogin : TokenResponse :=
  { accessToken := GenerateAccessToken jDemo 0 "7" "a@b.c"
    accessTokenExpiresIn := 900
    refreshToken := "S"
    tokenType := "Bearer" }

/-- The refresh store after that login (refresh TTL 1000). -/
def storeAfterLogin : List RefreshToken :=
  [{ id := 1, userID := 7, token := "S", expiresAt := 1000, revoked := false,
     createdAt := 0 }]

/-- The `if email = "" then "" else email` step in `issueTokens` is the
identity. -/
theorem emailFallback_id (s : String) : (if s = "" then "" else s) = s := by
  split
  · simp_all
  · rfl

/-- C8 (amended): every token pair returned by a successful login or
refresh has `tokenType` equal to the exact string `"Bearer"`. -/
theorem token_type_bearer (users : List User) (j : JWTManager)
    (refreshTTL : Int) (store : List RefreshToken) (now : Int)
    (email password secret : String) (freshId : Nat) (freshSecret : String) :
    (∀ tp store2,
      Login users j refreshTTL store now email password freshId freshSecret =
        (.ok tp, store2) → tp.tokenType = "Bearer") ∧
    (∀ tp store2,
      Refresh j refreshTTL store now secret freshId freshSecret =
        (.ok tp, store2) → tp.tokenType = "Bearer") := by
  constructor
  · intro tp store2 hl
    cases hA : Authenticate users email password with
    | error e => simp [Login, hA] at hl
    | ok u =>
      simp only [Login, hA, Prod.mk.injEq, Except.ok.injEq] at hl
      rw [← hl.1]
      rfl
  · intro tp store2 hr
    cases hf : FindRefreshToken store secret with
    | none => simp [Refresh, hf] at hr
    | some rt =>
      by_cases he : rt.expiresAt < now
      · simp [Refresh, hf, he] at hr
      · simp only [Refresh, hf, if_neg he, Prod.mk.injEq, Except.ok.injEq] at hr
        rw [← hr.1]
        rfl

/-- C8 (counterexample to the claim as stated): a concrete successful login
returns a pair whose `tokenType` is `"Bearer"`, which is not the string
`"bearer"` the claim requires. -/
theorem token_type_not_lowercase_bearer :
    (Login [userDemo] jDemo 1000 [] 0 "a@b.c" "pw" 1 "S").1 = .ok tpLogin ∧
    tpLogin.tokenType ≠ "bearer" := by
  exact ⟨by rfl, by decide⟩

/-- Witness for C8: the pairs issued by the concrete login and the concrete
rotation both carry `tokenType = "Bearer"`. -/
theorem token_type_bearer_witness :
    tpLogin.tokenType = "Bearer" ∧ tpRotated.tokenType = "Bearer" := by
  constructor
  · exact (token_type_bearer [userDemo] jDemo 1000 [] 0 "a@b.c" "pw" "A" 1
      "S").1 tpLogin storeAfterLogin (by rfl)
  · exact (token_type_bearer [] jDemo 50 [rtA] 0 "" "" "A" 2 "B").2 tpRotated
      storeRotated (by rfl)

/-- C9: a successful `Refresh` issues an access token whose email claim is
the empty string (while the subject claim is the record's user ID), not an
email re-resolved from the identity store; a successful `Login` issues an
access token embedding the authenticated user's stored email. -/
theorem refresh_issues_empty_email (users : List User) (j : JWTManager)
    (refreshTTL : Int) (store : List RefreshToken) (now : Int)
    (secret email password : String) (freshId : Nat) (freshSecret : String) :
    (∀ tp store2,
      Refresh j refreshTTL store now secret freshId freshSecret =
        (.ok tp, store2) →
      tp.accessToken.claims.email = "" ∧
      ∃ rt, FindRefreshToken store secret = some rt ∧
        tp.accessToken.claims.subject = toString rt.userID) ∧
    (∀ tp store2 u, Authenticate users email password = .ok u →
      Login users j refreshTTL store now email password freshId freshSecret =
        (.ok tp, store2) →
      tp.accessToken.claims.email = u.email ∧
      tp.accessToken.claims.subject = toString u.id) := by
  constructor
  · intro tp store2 hr
    cases hf : FindRefreshToken store secret with
    | none => simp [Refresh, hf] at hr
    | some rt =>
      by_cases he : rt.expiresAt < now
      · simp [Refresh, hf, he] at hr
      · simp only [Refresh, hf, if_neg he, Prod.mk.injEq, Except.ok.injEq] at hr
        rw [← hr.1]
        exact ⟨rfl, rt, rfl, rfl⟩
  · intro tp store2 u hA hl
    simp only [Login, hA, Prod.mk.injEq, Except.ok.injEq] at hl
    rw [← hl.1]
    refine ⟨?_, rfl⟩
    show (if u.email = "" then "" else u.email) = u.email
    exact emailFallback_id u.email

/-- Witness for C9: the pair from the concrete rotation carries an empty
email claim and subject `"7"`; the pair from the concrete login carries the
stored email. -/
theorem refresh_issues_empty_email_witness :
    tpRotated.accessToken.claims.email = "" ∧
    tpRotated.accessToken.claims.subject = "7" ∧
    tpLogin.accessToken.claims.email = userDemo.email := by
  have h1 := (refresh_issues_empty_email [] jDemo 50 [rtA] 0 "A" "" "" 2
    "B").1 tpRotated storeRotated (by rfl)
  have h2 := (refresh_issues_empty_email [userDemo] jDemo 1000 [] 0 "x"
    "a@b.c" "pw" 1 "S").2 tpLogin storeAfterLogin userDemo (by rfl) (by rfl)
  obtain ⟨rt, hfind, hsub⟩ := h1.2
  have hrt : rt = rtA := by
    have heq : some rtA = some rt := by rw [← hfind]; rfl
    simpa using heq.symm
  refine ⟨h1.1, ?_, h2.1⟩
  rw [hsub, hrt]
  rfl

/- ── The find/revoke race in Refresh ───────────────────────────────────── -/

/-- C1 (failing schedule): `Service.Refresh` is the composition of a store
read (`refreshFind`, the `FindRefreshToken` call plus the expiry check) and
a store write phase (`refreshCommit`, the `RevokeRefreshToken` call plus
`issueTokens`) — a separate read followed by a write, not a single atomic
conditional update. Consequently, under the interleaving in which two
concurrent `Refresh` calls with the same secret both perform their read
against one Active record before either performs its write
(`twoRefreshRace`), both calls succeed and two token pairs are issued,
instead of the claimed exactly-one success. -/
theorem refresh_race_double_success :
    (∀ (j : JWTManager) (refreshTTL : Int) (store : List RefreshToken)
      (now : Int) (secret : String) (freshId : Nat) (freshSecret : String),
      Refresh j refreshTTL store now secret freshId freshSecret =
        match refreshFind store now secret with
        | Option.none => (.error .InvalidOrExpiredToken, store)
        | some rt =>
          let p := refreshCommit j refreshTTL store now rt freshId freshSecret
          (.ok p.1, p.2)) ∧
    isOkResult (twoRefreshRace jDemo 50 [rtA] 0 "A" 2 "B" 3 "C").1 = true ∧
    isOkResult (twoRefreshRace jDemo 50 [rtA] 0 "A" 2 "B" 3 "C").2.1 = true := by
  refine ⟨?_, by rfl, by rfl⟩
  intro j refreshTTL store now secret freshId freshSecret
  unfold Refresh refreshFind refreshCommit
  cases hf : FindRefreshToken store secret with
  | none => rfl
  | some rt =>
    by_cases he : rt.expiresAt < now
    · simp [he]
    · simp [he]
